import Mathlib

/-!
Verification development for a small RAG question-answering system
consisting of an ingestion script (URL discovery, article scraping,
chunking, embedding, vector upsert) and a query-side answer function.

The Python sources are shallowly embedded: pure logic becomes Lean
functions, calls to external services (browser driver, embedding model,
LLM chain, vector index) become explicit function-valued parameters or
outcome values, and Python exceptions become `Except` values.
-/

namespace QA

/-- Python's substring test `needle in haystack` on strings:
contiguous-substring containment. -/
def pyIn (needle haystack : String) : Bool :=
  decide (needle.data <:+: haystack.data)

/-- Python's `str.lower()` (character-wise; the URLs and configuration
terms it is applied to are ASCII). -/
def pyLower (s : String) : String :=
  ⟨s.data.map Char.toLower⟩

/-- Python's `str.strip()`: drop whitespace from both ends. -/
def pyStrip (s : String) : String :=
  ⟨((s.data.dropWhile Char.isWhitespace).reverse.dropWhile
      Char.isWhitespace).reverse⟩

/-- Python's `str.startswith(pre)`. -/
def pyStartsWith (s pre : String) : Bool :=
  pre.data.isPrefixOf s.data

/-- Scan for the `"://"` scheme separator and return what follows it. -/
def afterScheme : List Char → Option (List Char)
  | ':' :: '/' :: '/' :: rest => some rest
  | _ :: rest => afterScheme rest
  | [] => none

/-- Model of `urllib.parse.urlparse(url).netloc` for the absolute URLs the
script feeds it (it is only reached after `href.startswith("http")`):
the text between `"://"` and the next `/`, `?` or `#`. -/
def netloc (url : String) : String :=
  match afterScheme url.data with
  | some rest => ⟨rest.takeWhile fun c => c != '/' && c != '?' && c != '#'⟩
  | none => ""

/-- A source configuration entry of `SOURCES` in `ingest.py` (the fields
`get_article_urls`, `scrape_article` and `process_and_upload_articles`
read; `base_urls` is passed separately as the `base_url` argument). -/
structure SourceConfig where
  article_patterns : List String
  excluded_terms : List String
  content_selectors : List String
  max_articles : Nat

/-- An anchor element of the rendered page: `get_attribute("href")` may
return `None` (modelled as `none`), and the link has a display text. -/
structure Link where
  href : Option String
  text : String

/-- A content area of the rendered page. `links = none` models
`find_elements(By.TAG_NAME, "a")` raising inside the per-area `try`
(the `except` clause continues with the next area); `links = some ls`
is the list of anchors found. -/
structure ContentArea where
  links : Option (List Link)

/-- The rendered page as the Selenium driver exposes it to `ingest.py`:
document title, raw page source, the optional `main` landmark element,
elements with `role='article'`, elements per CSS selector (as content
areas for link discovery and as text lists for scraping), the `body`
element, and the texts of top-level heading elements (present in the DOM;
the script never reads them). -/
structure Page where
  title : String
  page_source : String
  mainArea : Option ContentArea
  role_articles : List ContentArea
  selected : String → List ContentArea
  body : ContentArea
  selTexts : String → List String
  h1s : List String

/-- Outcome of `setup_driver()` followed by `wait_for_page_load`:
`setupFail` models `webdriver.Firefox(...)` itself raising (the local
`driver` is never bound), `loadFail` models a failure after the driver
exists (page load, title access, ...), `ok` is a fully rendered page. -/
inductive DriverOutcome where
  | setupFail (msg : String)
  | loadFail (msg : String)
  | ok (page : Page)

/-- The per-link loop of `get_article_urls` (ingest.py lines 204-242):
before each link the cap `len(article_urls) >= max_articles` is checked
and on reaching it the whole function returns (flag `true`); otherwise
the link passes, in order, the empty-href/empty-text check, the
`startswith("http")` check, the same-netloc check, the inclusion-pattern
check, the exclusion-term check (`term in href.lower()`), and the
duplicate check, and is appended when all pass. -/
def goLinks (cfg : SourceConfig) (bn : String) :
    List Link → List String → List String × Bool
  | [], acc => (acc, false)
  | l :: ls, acc =>
    if cfg.max_articles ≤ acc.length then (acc, true)
    else
      match l.href with
      | none => goLinks cfg bn ls acc
      | some h =>
        if h = "" then goLinks cfg bn ls acc
        else if pyStrip l.text = "" then goLinks cfg bn ls acc
        else if ¬ pyStartsWith h "http" then goLinks cfg bn ls acc
        else if ¬ netloc h = bn then goLinks cfg bn ls acc
        else if ¬ cfg.article_patterns.any (fun p => pyIn p h) then
          goLinks cfg bn ls acc
        else if cfg.excluded_terms.any (fun t => pyIn t (pyLower h)) then
          goLinks cfg bn ls acc
        else if acc.contains h then goLinks cfg bn ls acc
        else goLinks cfg bn ls (acc ++ [h])

/-- The per-content-area loop of `get_article_urls`: an area whose link
lookup raised is skipped; the early return triggered by the article cap
stops the traversal of the remaining areas. -/
def goAreas (cfg : SourceConfig) (bn : String) :
    List ContentArea → List String → List String
  | [], acc => acc
  | a :: rest, acc =>
    match a.links with
    | none => goAreas cfg bn rest acc
    | some ls =>
      if (goLinks cfg bn ls acc).2 then (goLinks cfg bn ls acc).1
      else goAreas cfg bn rest (goLinks cfg bn ls acc).1

/-- `get_article_urls(source_config, base_url)` (ingest.py lines 137-255).
The whole body sits in `try ... except ... finally: driver.quit()`.
When `setup_driver()` itself raises, the `except` clause swallows that
exception, but the `finally` clause then evaluates `driver.quit()` with
the local `driver` unbound, raising `NameError` to the caller — modelled
as `.error`. A failure after the driver exists is swallowed and the
(still empty) set is returned. On a rendered page, a title containing
"Access Denied" or a page source containing "Security Check" short-
circuits to the empty set; otherwise the content areas are the optional
`main` landmark, the `role='article'` elements and the hits of the
configured selectors, falling back to `[body]` when all three are empty,
and the areas are traversed by `goAreas`. -/
def get_article_urls (cfg : SourceConfig) (base_url : String)
    (d : DriverOutcome) : Except String (List String) :=
  match d with
  | .setupFail _ => .error "NameError: name \x27driver\x27 is not defined"
  | .loadFail _ => .ok []
  | .ok page =>
    if pyIn "Access Denied" page.title || pyIn "Security Check" page.page_source then
      .ok []
    else
      let areas := page.mainArea.toList ++ page.role_articles
        ++ cfg.content_selectors.flatMap page.selected
      let areas := if areas.isEmpty then [page.body] else areas
      .ok (goAreas cfg (netloc base_url) areas [])

/-- The dictionary `scrape_article` returns on success
(ingest.py lines 293-297). -/
structure Article where
  url : String
  title : String
  content : String
deriving DecidableEq

/-- One tier of the body-selector loops of `scrape_article`
(ingest.py lines 271-288): for each selector in order, if it matches any
elements, the texts of those elements whose stripped text is non-empty
are joined with newlines and the result is appended (`content += ...`)
to the text accumulated from the previous selectors of the tier. -/
def tierText (selectors : List String) (page : Page) : String :=
  selectors.foldl
    (fun acc sel =>
      let elements := page.selTexts sel
      if elements.isEmpty then acc
      else acc ++ String.intercalate "\n"
        (elements.filter fun t => ¬ pyStrip t = ""))
    ""

/-- The generic fallback selectors of `scrape_article`
(ingest.py line 281). -/
def fallback_selectors : List String := ["article", "main", ".content", "#content"]

/-- `scrape_article(url, source_config)` (ingest.py lines 257-306).
Body text: the concatenation over the source-specific selectors; only
when that is the empty string, the concatenation over the generic
fallback selectors (`if not content:`). Title: always `driver.title`.
Returns `none` (Python `None`) when no text was found or when a failure
after driver setup was swallowed; `setup_driver()` raising hits the same
unbound-`driver` `finally` clause as in `get_article_urls`. -/
def scrape_article (url : String) (cfg : SourceConfig)
    (d : DriverOutcome) : Except String (Option Article) :=
  match d with
  | .setupFail _ => .error "NameError: name \x27driver\x27 is not defined"
  | .loadFail _ => .ok none
  | .ok page =>
    let content := tierText cfg.content_selectors page
    let content := if content = "" then tierText fallback_selectors page else content
    if content = "" then .ok none
    else .ok (some { url := url, title := page.title, content := content })

/-- The vector-record id `f"{url}-{i}"` assigned in
`process_and_upload_articles` (ingest.py line 340). -/
def vectorId (url : String) (i : Nat) : String :=
  url ++ "-" ++ Nat.repr i

/-- One record of the upsert batch (ingest.py lines 339-350), metadata
fields flattened in. -/
structure VectorRecord where
  id : String
  values : List Int
  url : String
  title : String
  chunk_index : Nat
  total_chunks : Nat
  text : String
  source : String
deriving DecidableEq

/-- The external collaborators of `process_and_upload_articles`:
the per-URL result of `scrape_article` (a browser session per URL), the
`RecursiveCharacterTextSplitter.split_text` library call, and the
embedding service (`embeddings.embed_query`), which may raise per chunk. -/
structure IngestEnv where
  scrape : String → Option Article
  split : String → List String
  embed : String → Except String (List Int)

/-- The inner chunk loop of `process_and_upload_articles`
(ingest.py lines 334-354): each chunk is embedded; an embedding failure
is swallowed (`except: continue`) and that chunk alone is skipped;
otherwise a `VectorRecord` with id `f"{url}-{i}"` is appended. -/
def chunkRecords (env : IngestEnv) (url title : String)
    (chunks : List String) : List VectorRecord :=
  chunks.enum.filterMap fun p =>
    match env.embed p.2 with
    | .error _ => none
    | .ok v => some
        { id := vectorId url p.1
          values := v
          url := url
          title := title
          chunk_index := p.1
          total_chunks := chunks.length
          text := p.2
          source := netloc url }

/-- The article loop of `process_and_upload_articles`
(ingest.py lines 323-354): every URL whose scrape produced an article
with non-empty content contributes the records of all its chunks to the
single accumulating `batch` list. -/
def buildBatch (env : IngestEnv) : List String → List VectorRecord
  | [] => []
  | url :: rest =>
    match env.scrape url with
    | none => buildBatch env rest
    | some art =>
      if art.content = "" then buildBatch env rest
      else chunkRecords env url art.title (env.split art.content)
        ++ buildBatch env rest

/-- `MOCK_UPLOAD` (ingest.py line 54). -/
def MOCK_UPLOAD : Bool := false

/-- `process_and_upload_articles(article_urls, source_config)`
(ingest.py lines 308-364), observed through the sequence of
`index.upsert` calls it issues: the whole batch is accumulated first and
then uploaded in one call (`index.upsert(vectors=batch)`), issued only
when the batch is non-empty and `MOCK_UPLOAD` is off. The Python
`article_urls` set is traversed in some order; the model receives that
order as a list. -/
def process_and_upload_articles (env : IngestEnv) (article_urls : List String) :
    List (List VectorRecord) :=
  let batch := buildBatch env article_urls
  if batch.isEmpty || MOCK_UPLOAD then [] else [batch]

/-- A retrieved document as `vectorstore.similarity_search` returns it to
`get_answer`: page content plus the metadata fields the function reads
(`metadata.get` may find them absent, hence `Option`). -/
structure Doc where
  page_content : String
  title : Option String
  url : Option String

/-- The external collaborators of `get_answer` (qa_bot.py): the combined
embed-and-similarity-search call, and the `qa` chain invocation (which
re-retrieves internally and calls the LLM); either may raise. -/
structure QAEnv where
  search : String → Except String (List Doc)
  generate : String → Except String String

/-- The document-formatting block of `get_answer` (qa_bot.py lines
81-89): each retrieved document with non-empty content is re-wrapped
with a `\nSource: [Title](URL)` line appended to its content. The
resulting list is never passed to the chain — faithful to the source,
where `formatted_docs` is built and then unused. -/
def formatDocs (docs : List Doc) : List Doc :=
  (docs.filter fun d => ¬ d.page_content = "").map fun d =>
    { d with page_content := d.page_content ++ "\nSource: ["
        ++ d.title.getD "Untitled" ++ "](" ++ d.url.getD "No URL" ++ ")" }

/-- The `try` block of `get_answer` (qa_bot.py lines 70-98), paired with
the number of generation (LLM chain) requests issued: retrieve documents,
format them (result unused), then unconditionally invoke the `qa` chain —
there is no empty-retrieval branch. -/
def get_answer_run (env : QAEnv) (q : String) : Except String String × Nat :=
  match env.search q with
  | .error e => (.error e, 0)
  | .ok docs =>
    let _formatted := formatDocs docs
    match env.generate q with
    | .error e => (.error e, 1)
    | .ok ans => (.ok ans, 1)

/-- `get_answer(question)` (qa_bot.py lines 68-100): the `try` body's
result, with any exception caught and rendered as
`"Error getting answer: " + str(e)`. -/
def get_answer (env : QAEnv) (q : String) : String :=
  match (get_answer_run env q).1 with
  | .ok a => a
  | .error e => "Error getting answer: " ++ e

/-- The number of generation-service requests a `get_answer` call issues. -/
def genRequests (env : QAEnv) (q : String) : Nat :=
  (get_answer_run env q).2

/-- Modelled from the spec: the Chunker `split(text, chunkSize, overlap)`
with the parameters the code instantiates (`chunk_size=500`,
`chunk_overlap=50`, ingest.py lines 318-321). The splitter itself is the
external `RecursiveCharacterTextSplitter` library class, whose code is
not part of this repository; following the spec, the model splits at the
raw-character granularity (the finest level of the spec's separator
hierarchy) so that every chunk stays at or below `chunkSize` and the
trailing `overlap` characters of one chunk repeat at the start of the
next. Empty input yields an empty sequence. -/
def splitRec (s : List Char) : List (List Char) :=
  if s = [] then []
  else if s.length ≤ 500 then [s]
  else s.take 500 :: splitRec (s.drop 450)
termination_by s.length
decreasing_by
  simp only [List.length_drop]
  omega

/-- Modelled from the spec: `split_text` at the string level. -/
def split_text (t : String) : List String :=
  (splitRec t.data).map List.asString

/-- Consecutive chunks share exactly 50 characters at the boundary: the
last 50 characters of each chunk equal the first 50 of the next. -/
def overlapOK : List (List Char) → Prop
  | a :: b :: rest => a.drop (a.length - 50) = b.take 50 ∧ overlapOK (b :: rest)
  | _ => True

/-! ### Facts about decimal rendering (`Nat.repr`), needed for id uniqueness -/

/-- Numeric value of a decimal digit character. -/
def digitVal (c : Char) : Nat := c.toNat - 48

/-- Value of a decimal digit string, most significant digit first. -/
def digitsVal : List Char → Nat
  | [] => 0
  | c :: cs => digitVal c * 10 ^ cs.length + digitsVal cs

theorem digitVal_digitChar : ∀ m, m < 10 → digitVal (Nat.digitChar m) = m := by decide

theorem digitChar_ne_dash : ∀ m, m < 10 → Nat.digitChar m ≠ '-' := by decide

theorem toDigitsCore_no_dash :
    ∀ (fuel n : Nat) (acc : List Char), (∀ c ∈ acc, c ≠ '-') →
      ∀ c ∈ Nat.toDigitsCore 10 fuel n acc, c ≠ '-' := by
  intro fuel
  induction fuel with
  | zero => intro n acc hacc; simpa [Nat.toDigitsCore] using hacc
  | succ fuel ih =>
    intro n acc hacc
    have hcons : ∀ c ∈ Nat.digitChar (n % 10) :: acc, c ≠ '-' := by
      intro c hc
      rcases List.mem_cons.mp hc with rfl | h2
      · exact digitChar_ne_dash _ (Nat.mod_lt _ (by norm_num))
      · exact hacc c h2
    simp only [Nat.toDigitsCore]
    split
    · exact hcons
    · exact ih (n / 10) _ hcons

theorem repr_no_dash (n : Nat) : ∀ c ∈ (Nat.repr n).data, c ≠ '-' :=
  toDigitsCore_no_dash (n + 1) n [] (by simp)

theorem toDigitsCore_val :
    ∀ (fuel n : Nat) (acc : List Char), n < fuel →
      digitsVal (Nat.toDigitsCore 10 fuel n acc)
        = n * 10 ^ acc.length + digitsVal acc := by
  intro fuel
  induction fuel with
  | zero => intro n acc h; omega
  | succ fuel ih =>
    intro n acc h
    simp only [Nat.toDigitsCore]
    split
    next h0 =>
      have hn : n < 10 := by omega
      simp only [digitsVal, digitVal_digitChar (n % 10) (Nat.mod_lt _ (by norm_num))]
      rw [Nat.mod_eq_of_lt hn]
    next h0 =>
      have h10 : n / 10 < fuel := by omega
      rw [ih (n / 10) _ h10]
      simp only [digitsVal, List.length_cons,
        digitVal_digitChar (n % 10) (Nat.mod_lt _ (by norm_num))]
      have key : n / 10 * 10 + n % 10 = n := by omega
      calc n / 10 * 10 ^ (acc.length + 1) + (n % 10 * 10 ^ acc.length + digitsVal acc)
          = (n / 10 * 10 + n % 10) * 10 ^ acc.length + digitsVal acc := by ring
        _ = n * 10 ^ acc.length + digitsVal acc := by rw [key]

theorem digitsVal_repr (n : Nat) : digitsVal (Nat.repr n).data = n := by
  have h := toDigitsCore_val (n + 1) n [] (Nat.lt_succ_self n)
  simpa [digitsVal] using h

theorem repr_injective {m n : Nat} (h : Nat.repr m = Nat.repr n) : m = n := by
  have hm := digitsVal_repr m
  rw [h, digitsVal_repr] at hm
  exact hm.symm

/-- Cancellation for strings of the shape `xs ++ "-" ++ digits`: when the
parts after the dash contain no dash, both components agree. -/
theorem append_dash_cancel : ∀ (xs ys ds es : List Char),
    (∀ c ∈ ds, c ≠ '-') → (∀ c ∈ es, c ≠ '-') →
    xs ++ '-' :: ds = ys ++ '-' :: es → xs = ys ∧ ds = es := by
  intro xs
  induction xs with
  | nil =>
    intro ys ds es hds hes h
    cases ys with
    | nil => simpa using h
    | cons y ys =>
      simp only [List.nil_append, List.cons_append, List.cons.injEq] at h
      exact absurd (h.2 ▸ List.mem_append_right ys (List.mem_cons_self '-' es))
        (fun hmem => hds '-' hmem rfl)
  | cons x xs ih =>
    intro ys ds es hds hes h
    cases ys with
    | nil =>
      simp only [List.cons_append, List.nil_append, List.cons.injEq] at h
      exact absurd (h.2 ▸ List.mem_append_right xs (List.mem_cons_self '-' ds))
        (fun hmem => hes '-' hmem rfl)
    | cons y ys =>
      simp only [List.cons_append, List.cons.injEq] at h
      obtain ⟨ha, hb⟩ := ih ys ds es hds hes h.2
      exact ⟨by rw [h.1, ha], hb⟩

/-- Every record the chunk loop emits carries the id computed from its own
metadata url and chunk index. -/
theorem chunkRecords_id (env : IngestEnv) (url title : String)
    (chunks : List String) :
    ∀ r ∈ chunkRecords env url title chunks, r.id = vectorId r.url r.chunk_index := by
  intro r hr
  simp only [chunkRecords, List.mem_filterMap] at hr
  obtain ⟨p, _, hm⟩ := hr
  revert hm
  cases env.embed p.2 with
  | error e => intro hm; cases hm
  | ok v => intro hm; cases hm; rfl

/-- Claim C2: the vector-record id function is deterministic and injective.
Part one: every record produced by the ingestion batch loop has id
`f"{url}-{i}"` for its own url and chunk index. Part two: the id function
`vectorId` is injective — two distinct (url, chunk index) pairs never
collide, because the decimal rendering of the index contains no dash, so
the last dash of the id splits it unambiguously. Determinism (identical
input yields the identical id set) is immediate because the embedding is
a pure function of its input. -/
theorem vectorId_injective_and_pipeline_ids :
    (∀ (env : IngestEnv) (urls : List String), ∀ r ∈ buildBatch env urls,
        r.id = vectorId r.url r.chunk_index) ∧
    (∀ u₁ i₁ u₂ i₂, vectorId u₁ i₁ = vectorId u₂ i₂ → u₁ = u₂ ∧ i₁ = i₂) := by
  constructor
  · intro env urls
    induction urls with
    | nil => intro r hr; simp [buildBatch] at hr
    | cons url rest ih =>
      intro r hr
      rw [buildBatch] at hr
      revert hr
      cases env.scrape url with
      | none => exact fun hr => ih r hr
      | some art =>
        intro hr
        dsimp only at hr
        by_cases hc : art.content = ""
        · rw [if_pos hc] at hr
          exact ih r hr
        · rw [if_neg hc] at hr
          rcases List.mem_append.mp hr with hr | hr
          · exact chunkRecords_id env url art.title (env.split art.content) r hr
          · exact ih r hr
  · intro u₁ i₁ u₂ i₂ h
    have hdata : u₁.data ++ '-' :: (Nat.repr i₁).data
        = u₂.data ++ '-' :: (Nat.repr i₂).data := by
      have h' := congrArg String.data h
      simpa [vectorId, String.data_append] using h'
    obtain ⟨hu, hd⟩ := append_dash_cancel u₁.data u₂.data _ _
      (repr_no_dash i₁) (repr_no_dash i₂) hdata
    exact ⟨congrArg String.mk hu, repr_injective (congrArg String.mk hd)⟩

/-- A one-article, one-chunk ingestion environment used as a concrete
witness input. -/
def ingestEnvW : IngestEnv where
  scrape := fun u => some { url := u, title := "T", content := "c" }
  split := fun _ => ["c"]
  embed := fun _ => .ok [1]

/-- The single record the witness environment produces. -/
def recW : VectorRecord where
  id := "u-0"
  values := [1]
  url := "u"
  title := "T"
  chunk_index := 0
  total_chunks := 1
  text := "c"
  source := ""

theorem vectorId_injective_and_pipeline_ids_witness :
    (("u" : String) = "u" ∧ (0 : Nat) = 0) ∧ recW.id = vectorId "u" 0 := by
  constructor
  · exact vectorId_injective_and_pipeline_ids.2 "u" 0 "u" 0 rfl
  · exact vectorId_injective_and_pipeline_ids.1 ingestEnvW ["u"] recW (by decide)

/-- Claim C10: `get_answer` is total at its public interface: the result
of the `try` body (which contains every failure point: embedding and
similarity search inside `search`, formatting, and the generation chain)
is returned as-is on success, and any exception is caught and rendered as
`"Error getting answer: "` followed by the exception message. -/
theorem get_answer_total_catch (env : QAEnv) (q : String) :
    (∀ e, (get_answer_run env q).1 = .error e →
      get_answer env q = "Error getting answer: " ++ e) ∧
    (∀ a, (get_answer_run env q).1 = .ok a → get_answer env q = a) := by
  constructor <;> intro x hx <;> simp [get_answer, hx]

/-- A query environment whose similarity search raises. -/
def qaEnvErr : QAEnv where
  search := fun _ => .error "connection refused"
  generate := fun _ => .ok "unused"

theorem get_answer_total_catch_witness :
    get_answer qaEnvErr "q" = "Error getting answer: " ++ "connection refused" :=
  (get_answer_total_catch qaEnvErr "q").1 "connection refused" rfl

/-- A query environment whose retrieval succeeds with zero documents and
whose generation chain succeeds. -/
def qaEnvEmpty : QAEnv where
  search := fun _ => .ok []
  generate := fun _ => .ok "generated answer"

/-- Claim C1 counterexample: retrieval returns zero chunks, yet
`get_answer` still issues one generation request and returns the
generation result, not the fixed fallback text — no such fallback exists
in `get_answer`. -/
theorem get_answer_no_fallback_counterexample :
    qaEnvEmpty.search "q" = .ok [] ∧
    genRequests qaEnvEmpty "q" = 1 ∧
    get_answer qaEnvEmpty "q" = "generated answer" ∧
    ¬ (get_answer qaEnvEmpty "q" =
        "I couldn\x27t find any relevant information in my knowledge base to answer your question.") := by
  refine ⟨rfl, rfl, rfl, by decide⟩

/-- Claim C1 (amended): when retrieval returns zero chunks `get_answer`
does not short-circuit: it still issues exactly one request to the
generation service, and the returned text is the generation result (or
the caught-error string when generation fails), never a fixed fallback. -/
theorem get_answer_empty_retrieval_still_generates (env : QAEnv) (q : String)
    (h : env.search q = .ok []) :
    genRequests env q = 1 ∧
    ((∃ a, env.generate q = .ok a ∧ get_answer env q = a) ∨
     (∃ e, env.generate q = .error e ∧
        get_answer env q = "Error getting answer: " ++ e)) := by
  cases hg : env.generate q with
  | ok a =>
    refine ⟨?_, .inl ⟨a, rfl, ?_⟩⟩ <;>
      simp [genRequests, get_answer, get_answer_run, h, hg]
  | error e =>
    refine ⟨?_, .inr ⟨e, rfl, ?_⟩⟩ <;>
      simp [genRequests, get_answer, get_answer_run, h, hg]

theorem get_answer_empty_retrieval_still_generates_witness :
    genRequests qaEnvEmpty "q" = 1 ∧
    ((∃ a, qaEnvEmpty.generate "q" = .ok a ∧ get_answer qaEnvEmpty "q" = a) ∨
     (∃ e, qaEnvEmpty.generate "q" = .error e ∧
        get_answer qaEnvEmpty "q" = "Error getting answer: " ++ e)) :=
  get_answer_empty_retrieval_still_generates qaEnvEmpty "q" rfl

/-- An ingestion environment whose single article splits into 101
chunks, all of which embed successfully. -/
def ingestEnvBig : IngestEnv where
  scrape := fun u => some { url := u, title := "T", content := "body" }
  split := fun _ => List.replicate 101 "c"
  embed := fun _ => .ok []

/-- Claim C7 counterexample: one article with 101 chunks produces a
single upsert call carrying 101 vectors — more than the claimed
100-vector bound, because `process_and_upload_articles` accumulates the
whole run into one batch and uploads it in one call. -/
theorem upsert_batch_unbounded_counterexample :
    (process_and_upload_articles ingestEnvBig ["u"]).map List.length = [101] ∧
    ¬ ((101 : Nat) ≤ 100) := by
  refine ⟨by decide, by decide⟩

/-- Claim C7 (amended): there is no batch-size bound; instead, at most
one upsert call is issued per `process_and_upload_articles` run (all
successfully embedded records travel in that single call, however many
there are). -/
theorem upsert_single_call (env : IngestEnv) (urls : List String) :
    (process_and_upload_articles env urls).length ≤ 1 := by
  unfold process_and_upload_articles
  dsimp only
  split <;> simp

/-- A configuration with two source-specific body selectors. -/
def cfgScrape : SourceConfig where
  article_patterns := []
  excluded_terms := []
  content_selectors := [".a", ".b"]
  max_articles := 20

/-- A rendered page whose two configured selectors both match text, and
whose DOM carries a top-level heading different from the document title. -/
def pageScrape : Page where
  title := "Doc Title"
  page_source := ""
  mainArea := none
  role_articles := []
  selected := fun _ => []
  body := ⟨some []⟩
  selTexts := fun sel => if sel = ".a" then ["X"] else if sel = ".b" then ["Y"] else []
  h1s := ["Real Title"]

/-- Claim C5 counterexample: the page has a top-level heading
"Real Title", yet the extracted article's title is the document title
"Doc Title" — `scrape_article` always uses `driver.title` and consults
no heading element. -/
theorem scrape_title_heading_counterexample :
    pageScrape.h1s = ["Real Title"] ∧
    scrape_article "http://x/a" cfgScrape (.ok pageScrape)
      = .ok (some { url := "http://x/a", title := "Doc Title", content := "XY" }) ∧
    ¬ (("Doc Title" : String) = "Real Title") := by
  refine ⟨rfl, rfl, by decide⟩

/-- Claim C5 (amended): the extracted article's title is always exactly
the page's document title — no heading heuristics, no first top-level
heading, no "Untitled" sentinel. -/
theorem scrape_title_is_document_title (url : String) (cfg : SourceConfig)
    (page : Page) (art : Article)
    (h : scrape_article url cfg (.ok page) = .ok (some art)) :
    art.title = page.title := by
  dsimp only [scrape_article] at h
  split at h <;> (try split at h) <;>
    first
      | exact Option.noConfusion (Except.ok.inj h)
      | (obtain rfl := (Option.some.inj (Except.ok.inj h)).symm; rfl)

theorem scrape_title_is_document_title_witness :
    ({ url := "http://x/a", title := "Doc Title", content := "XY" } : Article).title
      = pageScrape.title :=
  scrape_title_is_document_title "http://x/a" cfgScrape pageScrape _ rfl

/-- Claim C6 counterexample: the first configured selector alone already
yields the non-empty text "X", yet the extracted body is "XY" — the text
of the second selector is appended rather than discarded, so the first
non-empty strategy does not win. -/
theorem scrape_body_concatenation_counterexample :
    tierText [".a"] pageScrape = "X" ∧
    scrape_article "http://x/a" cfgScrape (.ok pageScrape)
      = .ok (some { url := "http://x/a", title := "Doc Title", content := "XY" }) ∧
    ¬ (("XY" : String) = "X") := by
  refine ⟨rfl, rfl, by decide⟩

/-- Claim C6 (amended): the winning unit is the whole selector tier, not
a single selector: whenever the concatenation of the texts of all
source-specific selectors is non-empty, the extracted body is exactly
that concatenation (every matching source-specific selector contributes,
and no generic fallback selector text is appended). -/
theorem scrape_body_tier_priority (url : String) (cfg : SourceConfig)
    (page : Page) (h : ¬ tierText cfg.content_selectors page = "") :
    scrape_article url cfg (.ok page)
      = .ok (some { url := url, title := page.title,
                    content := tierText cfg.content_selectors page }) := by
  simp [scrape_article, h]

theorem scrape_body_tier_priority_witness :
    scrape_article "http://x/a" cfgScrape (.ok pageScrape)
      = .ok (some { url := "http://x/a", title := pageScrape.title,
                    content := tierText cfgScrape.content_selectors pageScrape }) :=
  scrape_body_tier_priority "http://x/a" cfgScrape pageScrape (by decide)

/-- The link loop never grows the collected set beyond the configured
maximum. -/
theorem goLinks_length_le (cfg : SourceConfig) (bn : String) :
    ∀ (ls : List Link) (acc : List String), acc.length ≤ cfg.max_articles →
      (goLinks cfg bn ls acc).1.length ≤ cfg.max_articles := by
  intro ls
  induction ls with
  | nil => intro acc h; simpa [goLinks] using h
  | cons l ls ih =>
    intro acc h
    rw [goLinks]
    split
    · exact h
    next hcap =>
      split
      · exact ih acc h
      next s =>
        split
        · exact ih acc h
        split
        · exact ih acc h
        split
        · exact ih acc h
        split
        · exact ih acc h
        split
        · exact ih acc h
        split
        · exact ih acc h
        split
        · exact ih acc h
        · apply ih
          simp only [List.length_append, List.length_cons, List.length_nil]
          omega

/-- The link loop only ever appends URLs that fail every exclusion-term
test `term in href.lower()`. -/
theorem goLinks_clean (cfg : SourceConfig) (bn : String) :
    ∀ (ls : List Link) (acc : List String),
      (∀ u ∈ acc, ∀ t ∈ cfg.excluded_terms, pyIn t (pyLower u) = false) →
      ∀ u ∈ (goLinks cfg bn ls acc).1,
        ∀ t ∈ cfg.excluded_terms, pyIn t (pyLower u) = false := by
  intro ls
  induction ls with
  | nil => intro acc hacc; simpa [goLinks] using hacc
  | cons l ls ih =>
    intro acc hacc
    rw [goLinks]
    split
    · exact hacc
    next hcap =>
      split
      · exact ih acc hacc
      next s =>
        split
        · exact ih acc hacc
        split
        · exact ih acc hacc
        split
        · exact ih acc hacc
        split
        · exact ih acc hacc
        split
        · exact ih acc hacc
        split
        · exact ih acc hacc
        next hexcl =>
          split
          · exact ih acc hacc
          · apply ih
            intro u hu t ht
            rcases List.mem_append.mp hu with hu | hu
            · exact hacc u hu t ht
            · obtain rfl := List.mem_singleton.mp hu
              cases hpy : pyIn t (pyLower u)
              · rfl
              · exact absurd (List.any_eq_true.mpr ⟨t, ht, hpy⟩) hexcl

theorem goAreas_length_le (cfg : SourceConfig) (bn : String) :
    ∀ (areas : List ContentArea) (acc : List String),
      acc.length ≤ cfg.max_articles →
      (goAreas cfg bn areas acc).length ≤ cfg.max_articles := by
  intro areas
  induction areas with
  | nil => intro acc h; simpa [goAreas] using h
  | cons a rest ih =>
    intro acc h
    rw [goAreas]
    cases hls : a.links with
    | none => exact ih acc h
    | some ls =>
      dsimp only
      split
      · exact goLinks_length_le cfg bn ls acc h
      · exact ih _ (goLinks_length_le cfg bn ls acc h)

theorem goAreas_clean (cfg : SourceConfig) (bn : String) :
    ∀ (areas : List ContentArea) (acc : List String),
      (∀ u ∈ acc, ∀ t ∈ cfg.excluded_terms, pyIn t (pyLower u) = false) →
      ∀ u ∈ goAreas cfg bn areas acc,
        ∀ t ∈ cfg.excluded_terms, pyIn t (pyLower u) = false := by
  intro areas
  induction areas with
  | nil => intro acc h; simpa [goAreas] using h
  | cons a rest ih =>
    intro acc h
    rw [goAreas]
    cases hls : a.links with
    | none => exact ih acc h
    | some ls =>
      dsimp only
      split
      · exact goLinks_clean cfg bn ls acc h
      · exact ih _ (goLinks_clean cfg bn ls acc h)

/-- Claim C4: on every run that returns a URL set, the set has at most
`max_articles` elements; the cap check before each candidate link stops
collection (and the whole traversal) as soon as it is reached. -/
theorem get_article_urls_article_cap (cfg : SourceConfig) (base_url : String)
    (d : DriverOutcome) (urls : List String)
    (h : get_article_urls cfg base_url d = .ok urls) :
    urls.length ≤ cfg.max_articles := by
  cases d with
  | setupFail m => exact Except.noConfusion h
  | loadFail m =>
    obtain rfl := (Except.ok.inj h).symm
    simp
  | ok page =>
    dsimp only [get_article_urls] at h
    split at h
    · obtain rfl := (Except.ok.inj h).symm
      simp
    · obtain rfl := (Except.ok.inj h).symm
      exact goAreas_length_le cfg (netloc base_url) _ [] (by simp)

/-- A configuration and page used as concrete witness input for the
discovery theorems. -/
def cfgW : SourceConfig where
  article_patterns := ["/answers/"]
  excluded_terms := ["quote"]
  content_selectors := []
  max_articles := 20

def pageW : Page where
  title := "Answers"
  page_source := ""
  mainArea := some ⟨some [{ href := some "http://x/answers/deductibles", text := "D" }]⟩
  role_articles := []
  selected := fun _ => []
  body := ⟨some []⟩
  selTexts := fun _ => []
  h1s := []

theorem get_article_urls_article_cap_witness :
    (["http://x/answers/deductibles"] : List String).length ≤ cfgW.max_articles :=
  get_article_urls_article_cap cfgW "http://x" (.ok pageW)
    ["http://x/answers/deductibles"] rfl

/-- Claim C3 (amended): every URL a successful discovery run returns
fails the code's exclusion test — no exclusion term occurs verbatim in
the lowercased URL. (The term itself is not lowercased, so for terms
containing uppercase letters this is weaker than full case-insensitive
matching; the shipped configurations use lowercase terms only, for which
the two coincide.) -/
theorem get_article_urls_no_excluded_term (cfg : SourceConfig)
    (base_url : String) (d : DriverOutcome) (urls : List String)
    (h : get_article_urls cfg base_url d = .ok urls) :
    ∀ u ∈ urls, ∀ t ∈ cfg.excluded_terms, pyIn t (pyLower u) = false := by
  cases d with
  | setupFail m => exact Except.noConfusion h
  | loadFail m =>
    obtain rfl := (Except.ok.inj h).symm
    simp
  | ok page =>
    dsimp only [get_article_urls] at h
    split at h
    · obtain rfl := (Except.ok.inj h).symm
      simp
    · obtain rfl := (Except.ok.inj h).symm
      exact goAreas_clean cfg (netloc base_url) _ [] (by simp)

theorem get_article_urls_no_excluded_term_witness :
    pyIn "quote" (pyLower "http://x/answers/deductibles") = false :=
  get_article_urls_no_excluded_term cfgW "http://x" (.ok pageW)
    ["http://x/answers/deductibles"] rfl
    "http://x/answers/deductibles" (by decide) "quote" (by decide)

/-- A configuration whose exclusion term contains uppercase letters, and
a page offering a link whose URL contains that term in lowercase. -/
def cfg3 : SourceConfig where
  article_patterns := ["/answers/"]
  excluded_terms := ["QUOTE"]
  content_selectors := []
  max_articles := 20

def page3 : Page where
  title := "Answers"
  page_source := ""
  mainArea := some ⟨some [{ href := some "http://x/answers/quote-page", text := "Q" }]⟩
  role_articles := []
  selected := fun _ => []
  body := ⟨some []⟩
  selTexts := fun _ => []
  h1s := []

/-- Claim C3 counterexample: with the exclusion term "QUOTE", discovery
returns a URL that contains "QUOTE" under case-insensitive matching
(lowercasing both sides), because the code lowercases only the URL
(`term in href.lower()`) and the uppercase term never matches. -/
theorem get_article_urls_excluded_case_counterexample :
    (("QUOTE" : String) ∈ cfg3.excluded_terms) ∧
    get_article_urls cfg3 "http://x" (.ok page3)
      = .ok ["http://x/answers/quote-page"] ∧
    pyIn (pyLower "QUOTE") (pyLower "http://x/answers/quote-page") = true := by
  refine ⟨by decide, rfl, by decide⟩

/-- Claim C9 (code bug): when `setup_driver()` itself raises, the
`except` clause swallows that exception but the `finally: driver.quit()`
clause references the still-unbound local `driver`, and the resulting
`NameError` propagates to the caller of `get_article_urls` — discovery
does abort instead of returning a (possibly empty) URL set. -/
theorem get_article_urls_setup_failure_raises :
    get_article_urls cfg3 "http://x" (.setupFail "geckodriver not found")
      = .error "NameError: name \x27driver\x27 is not defined" := rfl

theorem data_asString (l : List Char) : (List.asString l).data = l := rfl

/-- A non-empty input always yields a first chunk, and that chunk starts
with the input's first 50 characters. -/
theorem splitRec_ne_nil_head (t : List Char) (h : t ≠ []) :
    ∃ b rest, splitRec t = b :: rest ∧ b.take 50 = t.take 50 := by
  rw [splitRec, if_neg h]
  split
  · exact ⟨t, [], rfl, rfl⟩
  · refine ⟨t.take 500, splitRec (t.drop 450), rfl, ?_⟩
    rw [List.take_take]
    norm_num

theorem splitRec_length_le (s : List Char) : ∀ c ∈ splitRec s, c.length ≤ 500 := by
  induction s using splitRec.induct with
  | case1 =>
    intro c hc
    rw [splitRec, if_pos rfl] at hc
    exact absurd hc (List.not_mem_nil c)
  | case2 x h1 h2 =>
    intro c hc
    rw [splitRec, if_neg h1, if_pos h2] at hc
    obtain rfl := List.mem_singleton.mp hc
    exact h2
  | case3 x h1 h2 ih =>
    intro c hc
    rw [splitRec, if_neg h1, if_neg h2] at hc
    rcases List.mem_cons.mp hc with rfl | hc
    · simp only [List.length_take]
      omega
    · exact ih c hc

theorem splitRec_overlap (s : List Char) : overlapOK (splitRec s) := by
  induction s using splitRec.induct with
  | case1 =>
    rw [splitRec, if_pos rfl]
    trivial
  | case2 x h1 h2 =>
    rw [splitRec, if_neg h1, if_pos h2]
    trivial
  | case3 x h1 h2 ih =>
    rw [splitRec, if_neg h1, if_neg h2]
    have hne : x.drop 450 ≠ [] := by
      intro hd
      have hlen := congrArg List.length hd
      simp only [List.length_drop, List.length_nil] at hlen
      omega
    obtain ⟨b, rest, heq, hb⟩ := splitRec_ne_nil_head (x.drop 450) hne
    rw [heq]
    rw [heq] at ih
    refine ⟨?_, ih⟩
    have hlen : (x.take 500).length = 500 := by
      simp only [List.length_take]
      omega
    rw [hlen, hb, List.drop_take]

/-- Claim C8: every chunk the (spec-modelled) splitter produces has
length at most the chunk size 500, and consecutive chunks share exactly
the 50 overlap characters at their boundary. -/
theorem split_chunk_size_and_overlap (t : String) :
    (∀ c ∈ split_text t, c.length ≤ 500) ∧
    overlapOK ((split_text t).map String.data) := by
  constructor
  · intro c hc
    simp only [split_text, List.mem_map] at hc
    obtain ⟨l, hl, rfl⟩ := hc
    exact splitRec_length_le t.data l hl
  · have hmap : (split_text t).map String.data = splitRec t.data := by
      rw [split_text, List.map_map]
      have hcomp : String.data ∘ List.asString = id := funext data_asString
      rw [hcomp, List.map_id]
    rw [hmap]
    exact splitRec_overlap t.data

theorem split_chunk_size_and_overlap_witness : ("ab" : String).length ≤ 500 := by
  apply (split_chunk_size_and_overlap "ab").1
  have h : splitRec "ab".data = ["ab".data] := by
    rw [splitRec, if_neg (by decide), if_pos (by decide)]
  simp only [split_text, h, List.map_cons, List.map_nil]
  exact List.mem_singleton.mpr rfl

end QA
